import Mathlib

/-!
Verification of the ownCloud client update-check state machine
(`src/gui/updater/ocupdater.h`).  The repository ships only the header
(declaration surface); the member-function bodies live in `ocupdater.cpp`,
which is not part of the source tree here.  The enum values, the class
fields and the signal/slot surface are embedded from the header; the
behaviour of each operation is modelled from the specification, as the
doc comments record.
-/

namespace OCC

/-- The `DownloadState` enum of `OCUpdater`, from the header
(`ocupdater.h`, lines 93–96).  The integer codes follow the C++ enum:
`Unknown = 0` and the rest consecutive. -/
inductive DownloadState where
  | Unknown
  | CheckingServer
  | UpToDate
  | Downloading
  | DownloadComplete
  | DownloadFailed
  | DownloadTimedOut
  | UpdateOnlyAvailableThroughSystem
deriving DecidableEq, Repr

/-- Integer value of each `DownloadState` enumerator, as fixed by the C++
enum declaration (`Unknown = 0`, then consecutive). -/
def DownloadState.toCode : DownloadState → Nat
  | .Unknown => 0
  | .CheckingServer => 1
  | .UpToDate => 2
  | .Downloading => 3
  | .DownloadComplete => 4
  | .DownloadFailed => 5
  | .DownloadTimedOut => 6
  | .UpdateOnlyAvailableThroughSystem => 7

/-- States that end the current check cycle ("terminal per-check" in the
spec's state diagram). -/
def DownloadState.isTerminal : DownloadState → Bool
  | .UpToDate => true
  | .DownloadComplete => true
  | .DownloadFailed => true
  | .DownloadTimedOut => true
  | .UpdateOnlyAvailableThroughSystem => true
  | _ => false

/-- Modelled from the spec: `UpdateInfo` (its class lives in
`updater/updateinfo.h`, not in the tree) is immutable parsed version
metadata — version string, download URL, release notes, web URL —
compared only by version string. -/
structure UpdateInfo where
  version : String
  downloadUrl : String
  releaseNotes : String
  webUrl : String
deriving DecidableEq, Repr

/-- The default-constructed (empty) `UpdateInfo` held before any fetch. -/
def UpdateInfo.empty : UpdateInfo :=
  { version := "", downloadUrl := "", releaseNotes := "", webUrl := "" }

/-- Modelled from the spec: dotted-decimal version strings such as
"2.5.0" are parsed into their numeric components for comparison. -/
def parseVersionChars : List Char → Nat → List Nat
  | [], acc => [acc]
  | c :: cs, acc =>
      if c = '.' then acc :: parseVersionChars cs 0
      else parseVersionChars cs (acc * 10 + (c.toNat - ('0').toNat))

/-- Numeric components of a dotted version string. -/
def parseVersion (s : String) : List Nat :=
  parseVersionChars s.toList 0

/-- Lexicographic "strictly greater" on version component lists, with
missing trailing components read as zero. -/
def versionListGt : List Nat → List Nat → Bool
  | [], [] => false
  | [], _ :: _ => false
  | a :: as, [] => decide (0 < a) || versionListGt as []
  | a :: as, b :: bs => decide (b < a) || (a == b && versionListGt as bs)

/-- Modelled from the spec: the fetched version is compared against the
running application's version; `versionGt v w` holds when version string
`v` is strictly newer than `w`. -/
def versionGt (v w : String) : Bool :=
  versionListGt (parseVersion v) (parseVersion w)

/-- The platform strategy variant.  From the header: `NSISUpdater`
(silent installer download) and `PassiveUpdateNotifier` are the two
concrete subclasses of `OCUpdater`; the spec's PlatformUpdateStrategy is
chosen once at construction and never changes. -/
inductive Variant where
  | silent
  | passive
deriving DecidableEq, Repr

/-- Observable effects of one handler invocation: the signals declared in
the header (`downloadStateChanged`, `newUpdateAvailable`,
`requestRestart`), the virtual-strategy callback
`versionInfoArrived(info)`, and the issuing of one network fetch
(`fetchIssued`). -/
inductive Emit where
  | downloadStateChanged (s : DownloadState)
  | newUpdateAvailable (header message : String)
  | requestRestart
  | versionInfoArrivedHook (info : UpdateInfo)
  | fetchIssued
deriving DecidableEq, Repr

/-- The `OCUpdater` state machine.  Fields `updateUrl`, `state`,
`updateInfo` embed the header's private members `_updateUrl`, `_state`,
`_updateInfo`; `runningVersion` embeds the running application's version
(`_runningAppVersion` in `PassiveUpdateNotifier`); `checkOutstanding`
models whether a check cycle is in flight (the re-entrancy guard);
`watchdogArmed` models the single-shot `_timeoutWatchdog` timer together
with the pending network reply; `seenVersions` models the passive
variant's suppression of repeat announcements within one process run. -/
structure OCUpdater where
  updateUrl : String
  variant : Variant
  runningVersion : String
  state : DownloadState
  updateInfo : UpdateInfo
  checkOutstanding : Bool
  watchdogArmed : Bool
  seenVersions : List String
deriving DecidableEq, Repr

/-- Modelled from the spec: the `OCUpdater` constructor (body in the
absent `ocupdater.cpp`) stores the update URL and starts in state
`Unknown` with no check outstanding, no watchdog armed, empty cached
info and nothing announced yet. -/
def OCUpdater.init (url : String) (v : Variant) (rv : String) : OCUpdater :=
  { updateUrl := url
    variant := v
    runningVersion := rv
    state := .Unknown
    updateInfo := UpdateInfo.empty
    checkOutstanding := false
    watchdogArmed := false
    seenVersions := [] }

/-- `int downloadState() const` from the header: the stored state as its
integer enum value. -/
def OCUpdater.downloadState (u : OCUpdater) : Nat :=
  u.state.toCode

/-- Modelled from the spec: `setDownloadState` (body in the absent
`ocupdater.cpp`) stores the new state and emits the
`downloadStateChanged` notification; it touches nothing else. -/
def OCUpdater.setDownloadState (u : OCUpdater) (s : DownloadState) :
    OCUpdater × List Emit :=
  ({ u with state := s }, [.downloadStateChanged s])

/-- Modelled from the spec: `checkForUpdate` (body in the absent
`ocupdater.cpp`) is a no-op while a check is already in flight;
otherwise it transitions to `CheckingServer`, arms the single-shot
watchdog and issues the fetch. -/
def OCUpdater.checkForUpdate (u : OCUpdater) : OCUpdater × List Emit :=
  if u.checkOutstanding then (u, [])
  else
    let p :=
      OCUpdater.setDownloadState
        { u with checkOutstanding := true, watchdogArmed := true }
        .CheckingServer
    (p.1, p.2 ++ [Emit.fetchIssued])

/-- Modelled from the spec: the strategy hook `versionInfoArrived(info)`
(bodies of `NSISUpdater::versionInfoArrived` and
`PassiveUpdateNotifier::versionInfoArrived` are in the absent
`ocupdater.cpp`).  The silent-installer variant starts downloading the
payload (state `Downloading`); the passive variant announces the new
version — at most once per distinct version per process run — and
closes the check in state `UpdateOnlyAvailableThroughSystem`. -/
def OCUpdater.strategyVersionInfoArrived (u : OCUpdater) (info : UpdateInfo) :
    OCUpdater × List Emit :=
  match u.variant with
  | .silent => OCUpdater.setDownloadState u .Downloading
  | .passive =>
      let u1 :=
        { u with
          seenVersions :=
            if info.version ∈ u.seenVersions then u.seenVersions
            else info.version :: u.seenVersions
          checkOutstanding := false }
      let p := OCUpdater.setDownloadState u1 .UpdateOnlyAvailableThroughSystem
      (p.1,
        (if info.version ∈ u.seenVersions then []
        else [Emit.newUpdateAvailable "New Version Available" info.version])
          ++ p.2)

/-- Modelled from the spec: `slotVersionInfoArrived` (body in the absent
`ocupdater.cpp`) handles the fetch result.  A result arriving after the
check was closed by the watchdog is discarded.  Otherwise the watchdog
is disarmed; a failed fetch (network or parse error alike, `none` here)
closes the check in `DownloadFailed`; a fetched version not newer than
the running one closes it in `UpToDate`; a strictly newer version is
cached and handed to the strategy hook exactly once. -/
def OCUpdater.slotVersionInfoArrived (u : OCUpdater) (r : Option UpdateInfo) :
    OCUpdater × List Emit :=
  if u.watchdogArmed then
    let u1 := { u with watchdogArmed := false }
    match r with
    | none =>
        OCUpdater.setDownloadState
          { u1 with checkOutstanding := false } .DownloadFailed
    | some info =>
        if versionGt info.version u.runningVersion then
          let u2 := { u1 with updateInfo := info }
          let p := OCUpdater.strategyVersionInfoArrived u2 info
          (p.1, Emit.versionInfoArrivedHook info :: p.2)
        else
          OCUpdater.setDownloadState
            { u1 with checkOutstanding := false } .UpToDate
  else (u, [])

/-- Modelled from the spec: `slotTimedOut` (body in the absent
`ocupdater.cpp`) runs when the single-shot watchdog fires; the timer
cannot fire once disarmed.  It closes the check in `DownloadTimedOut`;
the still-pending fetch is abandoned (its late result will be
discarded). -/
def OCUpdater.slotTimedOut (u : OCUpdater) : OCUpdater × List Emit :=
  if u.watchdogArmed then
    OCUpdater.setDownloadState
      { u with watchdogArmed := false, checkOutstanding := false }
      .DownloadTimedOut
  else (u, [])

/-- Modelled from the spec: `NSISUpdater::slotDownloadFinished` /
`slotWriteFile` (bodies in the absent `ocupdater.cpp`): once the payload
download ends, a fully written payload closes the check in
`DownloadComplete`, a download error closes it in `DownloadFailed`
without retry. -/
def OCUpdater.slotDownloadFinished (u : OCUpdater) (ok : Bool) :
    OCUpdater × List Emit :=
  if u.state = .Downloading then
    OCUpdater.setDownloadState { u with checkOutstanding := false }
      (if ok then .DownloadComplete else .DownloadFailed)
  else (u, [])

/-- Modelled from the spec: `performUpdate` (body in the absent
`ocupdater.cpp`) initiates the strategy's install action
(`slotStartInstaller`, which launches the staged installer and fires
`requestRestart`) only when the state says an update is ready to
install, and returns whether an install action was actually
initiated. -/
def OCUpdater.performUpdate (u : OCUpdater) : (OCUpdater × List Emit) × Bool :=
  if u.state = .DownloadComplete then ((u, [.requestRestart]), true)
  else ((u, []), false)

/-- Modelled from the spec: `statusString` (body in the absent
`ocupdater.cpp`) derives a human-readable status purely from the current
`DownloadState` and the cached `UpdateInfo`; no side effects. -/
def OCUpdater.statusString (u : OCUpdater) : String :=
  match u.state with
  | .Unknown => "No updates checked yet"
  | .CheckingServer => "Checking update server"
  | .UpToDate => "Your installation is at the latest version"
  | .Downloading => "Downloading version " ++ u.updateInfo.version
  | .DownloadComplete => "Version " ++ u.updateInfo.version ++ " downloaded"
  | .DownloadFailed => "Could not download update"
  | .DownloadTimedOut => "Update check timed out"
  | .UpdateOnlyAvailableThroughSystem =>
      "New version " ++ u.updateInfo.version ++ " available through system"

/-- Events the single logical thread can dispatch to one `OCUpdater`
instance: an external or scheduled `checkForUpdate` call, the async
fetch resolving (success with parsed info, or failure), the watchdog
timer firing, the installer payload download ending, and a
`performUpdate` call. -/
inductive Event where
  | checkForUpdate
  | fetchArrived (r : Option UpdateInfo)
  | watchdogFired
  | downloadFinished (ok : Bool)
  | performUpdate
deriving DecidableEq, Repr

/-- One dispatch step of the cooperative event loop. -/
def OCUpdater.step (u : OCUpdater) : Event → OCUpdater × List Emit
  | .checkForUpdate => u.checkForUpdate
  | .fetchArrived r => u.slotVersionInfoArrived r
  | .watchdogFired => u.slotTimedOut
  | .downloadFinished ok => u.slotDownloadFinished ok
  | .performUpdate => (u.performUpdate).1

/-- Dispatch a whole event sequence, collecting every emitted signal in
order. -/
def OCUpdater.run (u : OCUpdater) : List Event → OCUpdater × List Emit
  | [] => (u, [])
  | e :: es =>
      let p := u.step e
      let q := p.1.run es
      (q.1, p.2 ++ q.2)

/-- Expected value of the re-entrancy guard in each state: a check cycle
is in flight exactly while the state is `CheckingServer` or
`Downloading`. -/
def expOutstanding : DownloadState → Bool
  | .CheckingServer => true
  | .Downloading => true
  | _ => false

/-- Expected value of the watchdog flag in each state: the fetch is
pending (watchdog armed) exactly while the state is `CheckingServer`. -/
def expArmed : DownloadState → Bool
  | .CheckingServer => true
  | _ => false

/-- The state-machine invariant tying the re-entrancy guard and the
single-shot watchdog to the current state. -/
def Inv (u : OCUpdater) : Prop :=
  u.checkOutstanding = expOutstanding u.state ∧ u.watchdogArmed = expArmed u.state

theorem expArmed_eq_true {s : DownloadState} (h : expArmed s = true) :
    s = .CheckingServer := by
  cases s <;> simp [expArmed] at h ⊢

theorem inv_step (u : OCUpdater) (e : Event) (h : Inv u) : Inv (u.step e).1 := by
  obtain ⟨ho, ha⟩ := h
  cases e with
  | checkForUpdate =>
      cases hc : u.checkOutstanding with
      | true =>
          simp only [OCUpdater.step, OCUpdater.checkForUpdate, hc, if_true]
          exact ⟨ho, ha⟩
      | false =>
          simp [OCUpdater.step, OCUpdater.checkForUpdate, hc,
            OCUpdater.setDownloadState, Inv, expOutstanding, expArmed]
  | fetchArrived r =>
      cases hw : u.watchdogArmed with
      | false =>
          simp only [OCUpdater.step, OCUpdater.slotVersionInfoArrived, hw,
            Bool.false_eq_true, if_false]
          exact ⟨ho, ha⟩
      | true =>
          have hs : u.state = .CheckingServer := expArmed_eq_true (ha.symm.trans hw)
          have hco : u.checkOutstanding = true := by rw [ho, hs]; rfl
          cases r with
          | none =>
              simp [OCUpdater.step, OCUpdater.slotVersionInfoArrived, hw,
                OCUpdater.setDownloadState, Inv, expOutstanding, expArmed]
          | some info =>
              by_cases hv : versionGt info.version u.runningVersion = true
              · cases hvar : u.variant with
                | silent =>
                    simp [OCUpdater.step, OCUpdater.slotVersionInfoArrived, hw, hv,
                      OCUpdater.strategyVersionInfoArrived, hvar,
                      OCUpdater.setDownloadState, Inv, expOutstanding, expArmed, hco]
                | passive =>
                    simp [OCUpdater.step, OCUpdater.slotVersionInfoArrived, hw, hv,
                      OCUpdater.strategyVersionInfoArrived, hvar,
                      OCUpdater.setDownloadState, Inv, expOutstanding, expArmed]
              · simp [OCUpdater.step, OCUpdater.slotVersionInfoArrived, hw, hv,
                  OCUpdater.setDownloadState, Inv, expOutstanding, expArmed]
  | watchdogFired =>
      cases hw : u.watchdogArmed with
      | false =>
          simp only [OCUpdater.step, OCUpdater.slotTimedOut, hw,
            Bool.false_eq_true, if_false]
          exact ⟨ho, ha⟩
      | true =>
          simp [OCUpdater.step, OCUpdater.slotTimedOut, hw,
            OCUpdater.setDownloadState, Inv, expOutstanding, expArmed]
  | downloadFinished ok =>
      by_cases hd : u.state = .Downloading
      · have haf : u.watchdogArmed = false := by rw [ha, hd]; rfl
        cases ok <;>
          simp [OCUpdater.step, OCUpdater.slotDownloadFinished, hd,
            OCUpdater.setDownloadState, Inv, expOutstanding, expArmed, haf]
      · simp only [OCUpdater.step, OCUpdater.slotDownloadFinished, hd, if_false]
        exact ⟨ho, ha⟩
  | performUpdate =>
      by_cases hd : u.state = .DownloadComplete <;>
        simp only [OCUpdater.step, OCUpdater.performUpdate, hd, if_true, if_false] <;>
        exact ⟨ho, ha⟩

theorem inv_run (es : List Event) : ∀ u : OCUpdater, Inv u → Inv (u.run es).1 := by
  induction es with
  | nil => intro u h; simpa [OCUpdater.run] using h
  | cons e es ih =>
      intro u h
      simpa [OCUpdater.run] using ih _ (inv_step u e h)

theorem inv_init (url rv : String) (v : Variant) :
    Inv (OCUpdater.init url v rv) :=
  ⟨rfl, rfl⟩

/-- A machine state is reachable when some event sequence dispatched to a
freshly constructed instance produces it. -/
def Reachable (u : OCUpdater) : Prop :=
  ∃ url v rv es, u = ((OCUpdater.init url v rv).run es).1

theorem reachable_inv {u : OCUpdater} (h : Reachable u) : Inv u := by
  obtain ⟨url, v, rv, es, rfl⟩ := h
  exact inv_run es _ (inv_init url rv v)

/-- Number of strategy-hook invocations recorded in an effect list. -/
def countHooks (ms : List Emit) : Nat :=
  ms.countP fun m =>
    match m with
    | .versionInfoArrivedHook _ => true
    | _ => false

/-- Number of `newUpdateAvailable` announcements for version `v`
recorded in an effect list. -/
def countAnnounce (ms : List Emit) (v : String) : Nat :=
  ms.countP fun m =>
    match m with
    | .newUpdateAvailable _ msg => decide (msg = v)
    | _ => false

/-- Number of network fetches issued, as recorded in an effect list. -/
def countFetches (ms : List Emit) : Nat :=
  ms.countP fun m =>
    match m with
    | .fetchIssued => true
    | _ => false

/-- The per-check transition diagram of the spec (section 4.2), plus the
fresh-cycle edge: a terminal state may be left for `CheckingServer` by a
later `checkForUpdate`. -/
def allowedEdge : DownloadState → DownloadState → Bool
  | .Unknown, .CheckingServer => true
  | .CheckingServer, .UpToDate => true
  | .CheckingServer, .Downloading => true
  | .CheckingServer, .UpdateOnlyAvailableThroughSystem => true
  | .CheckingServer, .DownloadFailed => true
  | .CheckingServer, .DownloadTimedOut => true
  | .Downloading, .DownloadComplete => true
  | .Downloading, .DownloadFailed => true
  | s, .CheckingServer => s.isTerminal
  | _, _ => false

theorem expOutstanding_false_edge {s : DownloadState}
    (h : expOutstanding s = false) : allowedEdge s .CheckingServer = true := by
  cases s <;> revert h <;> decide

theorem isTerminal_flags {s : DownloadState} (h : s.isTerminal = true) :
    expOutstanding s = false ∧ expArmed s = false := by
  cases s <;> revert h <;> decide

theorem step_edge (u : OCUpdater) (e : Event) (h : Inv u) :
    (u.step e).1.state = u.state ∨
      allowedEdge u.state (u.step e).1.state = true := by
  obtain ⟨ho, ha⟩ := h
  cases e with
  | checkForUpdate =>
      cases hc : u.checkOutstanding with
      | true => left; simp [OCUpdater.step, OCUpdater.checkForUpdate, hc]
      | false =>
          right
          have hnew : (u.step .checkForUpdate).1.state = .CheckingServer := by
            simp [OCUpdater.step, OCUpdater.checkForUpdate, hc,
              OCUpdater.setDownloadState]
          rw [hnew]
          exact expOutstanding_false_edge (ho.symm.trans hc)
  | fetchArrived r =>
      cases hw : u.watchdogArmed with
      | false => left; simp [OCUpdater.step, OCUpdater.slotVersionInfoArrived, hw]
      | true =>
          have hs : u.state = .CheckingServer := expArmed_eq_true (ha.symm.trans hw)
          right
          rw [hs]
          cases r with
          | none =>
              simp [OCUpdater.step, OCUpdater.slotVersionInfoArrived, hw,
                OCUpdater.setDownloadState, allowedEdge]
          | some info =>
              by_cases hv : versionGt info.version u.runningVersion = true
              · cases hvar : u.variant with
                | silent =>
                    simp [OCUpdater.step, OCUpdater.slotVersionInfoArrived, hw, hv,
                      OCUpdater.strategyVersionInfoArrived, hvar,
                      OCUpdater.setDownloadState, allowedEdge]
                | passive =>
                    simp [OCUpdater.step, OCUpdater.slotVersionInfoArrived, hw, hv,
                      OCUpdater.strategyVersionInfoArrived, hvar,
                      OCUpdater.setDownloadState, allowedEdge]
              · simp [OCUpdater.step, OCUpdater.slotVersionInfoArrived, hw, hv,
                  OCUpdater.setDownloadState, allowedEdge]
  | watchdogFired =>
      cases hw : u.watchdogArmed with
      | false => left; simp [OCUpdater.step, OCUpdater.slotTimedOut, hw]
      | true =>
          have hs : u.state = .CheckingServer := expArmed_eq_true (ha.symm.trans hw)
          right
          rw [hs]
          simp [OCUpdater.step, OCUpdater.slotTimedOut, hw,
            OCUpdater.setDownloadState, allowedEdge]
  | downloadFinished ok =>
      by_cases hd : u.state = .Downloading
      · right
        rw [hd]
        cases ok <;>
          simp [OCUpdater.step, OCUpdater.slotDownloadFinished, hd,
            OCUpdater.setDownloadState, allowedEdge]
      · left; simp [OCUpdater.step, OCUpdater.slotDownloadFinished, hd]
  | performUpdate =>
      left
      by_cases hd : u.state = .DownloadComplete <;>
        simp [OCUpdater.step, OCUpdater.performUpdate, hd]

theorem step_terminal (u : OCUpdater) (e : Event) (h : Inv u)
    (ht : u.state.isTerminal = true) :
    (u.step e).1.state = u.state ∨
      (e = Event.checkForUpdate ∧ (u.step e).1.state = .CheckingServer) := by
  obtain ⟨ho, ha⟩ := h
  obtain ⟨ho', ha'⟩ := isTerminal_flags ht
  have hcof : u.checkOutstanding = false := ho.trans ho'
  have hwf : u.watchdogArmed = false := ha.trans ha'
  cases e with
  | checkForUpdate =>
      right
      refine ⟨rfl, ?_⟩
      simp [OCUpdater.step, OCUpdater.checkForUpdate, hcof,
        OCUpdater.setDownloadState]
  | fetchArrived r =>
      left; simp [OCUpdater.step, OCUpdater.slotVersionInfoArrived, hwf]
  | watchdogFired =>
      left; simp [OCUpdater.step, OCUpdater.slotTimedOut, hwf]
  | downloadFinished ok =>
      have hnd : u.state ≠ .Downloading := by
        intro hh
        rw [hh] at ht
        exact absurd ht (by decide)
      left; simp [OCUpdater.step, OCUpdater.slotDownloadFinished, hnd]
  | performUpdate =>
      left
      by_cases hd : u.state = .DownloadComplete <;>
        simp [OCUpdater.step, OCUpdater.performUpdate, hd]

theorem countHooks_checkForUpdate (u : OCUpdater) :
    countHooks (u.checkForUpdate).2 = 0 := by
  cases hc : u.checkOutstanding <;>
    simp [OCUpdater.checkForUpdate, hc, OCUpdater.setDownloadState, countHooks]

theorem countHooks_slotTimedOut (u : OCUpdater) :
    countHooks (u.slotTimedOut).2 = 0 := by
  cases hw : u.watchdogArmed <;>
    simp [OCUpdater.slotTimedOut, hw, OCUpdater.setDownloadState, countHooks]

theorem countHooks_slotDownloadFinished (u : OCUpdater) (ok : Bool) :
    countHooks (u.slotDownloadFinished ok).2 = 0 := by
  by_cases hd : u.state = .Downloading <;> cases ok <;>
    simp [OCUpdater.slotDownloadFinished, hd, OCUpdater.setDownloadState,
      countHooks]

theorem announce_step (u : OCUpdater) (e : Event) (v : String) :
    (v ∈ u.seenVersions →
      countAnnounce (u.step e).2 v = 0 ∧ v ∈ (u.step e).1.seenVersions) ∧
    countAnnounce (u.step e).2 v ≤ 1 ∧
    (1 ≤ countAnnounce (u.step e).2 v → v ∈ (u.step e).1.seenVersions) := by
  cases e with
  | checkForUpdate =>
      cases hc : u.checkOutstanding <;>
        simp [OCUpdater.step, OCUpdater.checkForUpdate, hc,
          OCUpdater.setDownloadState, countAnnounce]
  | watchdogFired =>
      cases hw : u.watchdogArmed <;>
        simp [OCUpdater.step, OCUpdater.slotTimedOut, hw,
          OCUpdater.setDownloadState, countAnnounce]
  | downloadFinished ok =>
      by_cases hd : u.state = .Downloading <;> cases ok <;>
        simp [OCUpdater.step, OCUpdater.slotDownloadFinished, hd,
          OCUpdater.setDownloadState, countAnnounce]
  | performUpdate =>
      by_cases hd : u.state = .DownloadComplete <;>
        simp [OCUpdater.step, OCUpdater.performUpdate, hd, countAnnounce]
  | fetchArrived r =>
      cases hw : u.watchdogArmed with
      | false =>
          simp [OCUpdater.step, OCUpdater.slotVersionInfoArrived, hw,
            countAnnounce]
      | true =>
          cases r with
          | none =>
              simp [OCUpdater.step, OCUpdater.slotVersionInfoArrived, hw,
                OCUpdater.setDownloadState, countAnnounce]
          | some info =>
              by_cases hv : versionGt info.version u.runningVersion = true
              · cases hvar : u.variant with
                | silent =>
                    simp [OCUpdater.step, OCUpdater.slotVersionInfoArrived, hw,
                      hv, OCUpdater.strategyVersionInfoArrived, hvar,
                      OCUpdater.setDownloadState, countAnnounce]
                | passive =>
                    by_cases hm : info.version ∈ u.seenVersions
                    · simp [OCUpdater.step, OCUpdater.slotVersionInfoArrived,
                        hw, hv, OCUpdater.strategyVersionInfoArrived, hvar,
                        OCUpdater.setDownloadState, countAnnounce, hm]
                    · by_cases hiv : info.version = v
                      · subst hiv
                        simp [OCUpdater.step, OCUpdater.slotVersionInfoArrived,
                          hw, hv, OCUpdater.strategyVersionInfoArrived, hvar,
                          OCUpdater.setDownloadState, countAnnounce, hm]
                      · simp [OCUpdater.step, OCUpdater.slotVersionInfoArrived,
                          hw, hv, OCUpdater.strategyVersionInfoArrived, hvar,
                          OCUpdater.setDownloadState, countAnnounce, hm, hiv]
                        exact fun hvv => Or.inr hvv
              · simp [OCUpdater.step, OCUpdater.slotVersionInfoArrived, hw, hv,
                  OCUpdater.setDownloadState, countAnnounce]

theorem announce_run (es : List Event) (v : String) :
    ∀ u : OCUpdater,
      (v ∈ u.seenVersions → countAnnounce (u.run es).2 v = 0) ∧
      countAnnounce (u.run es).2 v ≤ 1 := by
  induction es with
  | nil => intro u; simp [OCUpdater.run, countAnnounce]
  | cons e es ih =>
      intro u
      obtain ⟨hstep1, hstep2, hstep3⟩ := announce_step u e v
      obtain ⟨ih1, ih2⟩ := ih (u.step e).1
      have happ : countAnnounce (u.run (e :: es)).2 v
          = countAnnounce (u.step e).2 v
            + countAnnounce ((u.step e).1.run es).2 v := by
        simp [OCUpdater.run, countAnnounce, List.countP_append]
      constructor
      · intro hv
        obtain ⟨h0, hm⟩ := hstep1 hv
        rw [happ, h0, ih1 hm]
      · rw [happ]
        rcases Nat.eq_zero_or_pos (countAnnounce (u.step e).2 v) with h0 | hpos
        · rw [h0]
          simpa using ih2
        · have hm := hstep3 hpos
          have h2 := ih1 hm
          omega

/-- The version metadata of the spec's worked scenario: the server offers
version 2.6.0 at `https://x/installer.exe`. -/
def sampleInfo : UpdateInfo :=
  { version := "2.6.0"
    downloadUrl := "https://x/installer.exe"
    releaseNotes := ""
    webUrl := "" }

/-- A freshly constructed silent-installer instance running
version 2.5.0. -/
def silentStart : OCUpdater :=
  OCUpdater.init "https://updates.example" .silent "2.5.0"

/-- A reachable silent-installer instance with a check in flight
(state `CheckingServer`, watchdog armed). -/
def silentChecking : OCUpdater :=
  (silentStart.run [.checkForUpdate]).1

/-- A reachable passive-notifier instance with a check in flight. -/
def passiveChecking : OCUpdater :=
  ((OCUpdater.init "https://updates.example" .passive "2.5.0").run
    [.checkForUpdate]).1

/-- Claim C1: on every state of an `OCUpdater` instance reachable by any
sequence of dispatched events, calling `checkForUpdate` while a check is
outstanding (in particular while the fetch is still in flight) is a
no-op: the machine is returned unchanged and nothing is emitted — in
particular no second `fetchIssued` — so at most one fetch is ever in
flight per instance. -/
theorem c1_checkForUpdate_noop_while_outstanding
    (url rv : String) (v : Variant) (es : List Event)
    (h : ((OCUpdater.init url v rv).run es).1.checkOutstanding = true
      ∨ ((OCUpdater.init url v rv).run es).1.watchdogArmed = true) :
    ((OCUpdater.init url v rv).run es).1.checkForUpdate
      = (((OCUpdater.init url v rv).run es).1, []) := by
  have hinv : Inv ((OCUpdater.init url v rv).run es).1 :=
    inv_run es _ (inv_init url rv v)
  have hco : ((OCUpdater.init url v rv).run es).1.checkOutstanding = true := by
    rcases h with h | h
    · exact h
    · have hs := expArmed_eq_true (hinv.2.symm.trans h)
      rw [hinv.1, hs]
      rfl
  simp [OCUpdater.checkForUpdate, hco]

theorem c1_witness :
    ((OCUpdater.init "https://updates.example" Variant.silent "2.5.0").run
        [Event.checkForUpdate]).1.checkForUpdate
      = (((OCUpdater.init "https://updates.example" Variant.silent "2.5.0").run
          [Event.checkForUpdate]).1, []) :=
  c1_checkForUpdate_noop_while_outstanding "https://updates.example" "2.5.0"
    Variant.silent [Event.checkForUpdate] (Or.inl rfl)

/-- Claim C2: if the watchdog fires while the fetch is still pending
(`watchdogArmed`), the state becomes `DownloadTimedOut`, and a fetch
result `r` — success or failure — arriving after that is discarded: the
machine of the closed check is returned unchanged and nothing is
emitted. -/
theorem c2_timeout_wins_late_result_discarded
    (u : OCUpdater) (r : Option UpdateInfo) (h : u.watchdogArmed = true) :
    (u.slotTimedOut).1.state = DownloadState.DownloadTimedOut ∧
    (u.slotTimedOut).1.slotVersionInfoArrived r = ((u.slotTimedOut).1, []) := by
  constructor
  · simp [OCUpdater.slotTimedOut, h, OCUpdater.setDownloadState]
  · simp [OCUpdater.slotTimedOut, h, OCUpdater.setDownloadState,
      OCUpdater.slotVersionInfoArrived]

theorem c2_witness :
    (silentChecking.slotTimedOut).1.state = DownloadState.DownloadTimedOut ∧
    (silentChecking.slotTimedOut).1.slotVersionInfoArrived (some sampleInfo)
      = ((silentChecking.slotTimedOut).1, []) :=
  c2_timeout_wins_late_result_discarded silentChecking (some sampleInfo) rfl

/-- Claim C3: when a fetch result is processed for an open check, the
strategy hook `versionInfoArrived` is invoked exactly once if the
fetched version is strictly greater than the running version, and zero
times otherwise, in which case the state becomes `UpToDate`; a
duplicate (late) delivery of the same result invokes the hook zero
times, and no other handler ever invokes it — so the hook runs exactly
once per check that discovers a newer version. -/
theorem c3_hook_exactly_once_iff_newer
    (u : OCUpdater) (info : UpdateInfo) (h : u.watchdogArmed = true) :
    countHooks (u.slotVersionInfoArrived (some info)).2
      = (if versionGt info.version u.runningVersion then 1 else 0) ∧
    (u.slotVersionInfoArrived (some info)).1.state
      = (if versionGt info.version u.runningVersion then
          (if u.variant = Variant.silent then DownloadState.Downloading
            else DownloadState.UpdateOnlyAvailableThroughSystem)
        else DownloadState.UpToDate) ∧
    countHooks
      ((u.slotVersionInfoArrived (some info)).1.slotVersionInfoArrived
        (some info)).2 = 0 ∧
    countHooks (u.checkForUpdate).2 = 0 ∧
    countHooks (u.slotTimedOut).2 = 0 ∧
    countHooks (u.slotDownloadFinished true).2 = 0 ∧
    countHooks (u.slotDownloadFinished false).2 = 0 := by
  refine ⟨?_, ?_, ?_, countHooks_checkForUpdate u, countHooks_slotTimedOut u,
    countHooks_slotDownloadFinished u true, countHooks_slotDownloadFinished u false⟩
  all_goals
    by_cases hv : versionGt info.version u.runningVersion = true
  · cases hvar : u.variant <;>
      simp [OCUpdater.slotVersionInfoArrived, h, hv,
        OCUpdater.strategyVersionInfoArrived, hvar,
        OCUpdater.setDownloadState, countHooks]
  · simp [OCUpdater.slotVersionInfoArrived, h, hv,
      OCUpdater.setDownloadState, countHooks]
  · cases hvar : u.variant <;>
      simp [OCUpdater.slotVersionInfoArrived, h, hv,
        OCUpdater.strategyVersionInfoArrived, hvar,
        OCUpdater.setDownloadState]
  · simp [OCUpdater.slotVersionInfoArrived, h, hv,
      OCUpdater.setDownloadState]
  · cases hvar : u.variant <;>
      simp [OCUpdater.slotVersionInfoArrived, h, hv,
        OCUpdater.strategyVersionInfoArrived, hvar,
        OCUpdater.setDownloadState, countHooks]
  · simp [OCUpdater.slotVersionInfoArrived, h, hv,
      OCUpdater.setDownloadState, countHooks]

theorem c3_witness :
    countHooks (silentChecking.slotVersionInfoArrived (some sampleInfo)).2
      = (if versionGt sampleInfo.version silentChecking.runningVersion then 1
        else 0) ∧
    (silentChecking.slotVersionInfoArrived (some sampleInfo)).1.state
      = (if versionGt sampleInfo.version silentChecking.runningVersion then
          (if silentChecking.variant = Variant.silent then
            DownloadState.Downloading
          else DownloadState.UpdateOnlyAvailableThroughSystem)
        else DownloadState.UpToDate) ∧
    countHooks
      ((silentChecking.slotVersionInfoArrived
          (some sampleInfo)).1.slotVersionInfoArrived (some sampleInfo)).2 = 0 ∧
    countHooks (silentChecking.checkForUpdate).2 = 0 ∧
    countHooks (silentChecking.slotTimedOut).2 = 0 ∧
    countHooks (silentChecking.slotDownloadFinished true).2 = 0 ∧
    countHooks (silentChecking.slotDownloadFinished false).2 = 0 :=
  c3_hook_exactly_once_iff_newer silentChecking sampleInfo rfl

/-- A reachable instance in the terminal state `DownloadFailed` (its
check's fetch failed). -/
def silentFailed : OCUpdater :=
  (silentStart.run [.checkForUpdate, .fetchArrived none]).1

/-- Claim C4: a freshly constructed instance starts in `Unknown`; every
step taken from a reachable state either leaves the state unchanged or
follows an edge of the per-check diagram (`allowedEdge`, which contains
the spec's eight per-check edges plus terminal-to-`CheckingServer`
fresh-cycle edges); and a terminal state is only ever left by a
`checkForUpdate` event, which starts the fresh cycle at
`CheckingServer`. -/
theorem c4_transitions_follow_diagram (u : OCUpdater) (e : Event)
    (h : Reachable u) :
    (∀ url rv : String, ∀ v : Variant,
      (OCUpdater.init url v rv).state = DownloadState.Unknown) ∧
    ((u.step e).1.state = u.state ∨
      allowedEdge u.state (u.step e).1.state = true) ∧
    (u.state.isTerminal = true →
      (u.step e).1.state = u.state ∨
        (e = Event.checkForUpdate ∧
          (u.step e).1.state = DownloadState.CheckingServer)) := by
  have hinv := reachable_inv h
  exact ⟨fun _ _ _ => rfl, step_edge u e hinv, step_terminal u e hinv⟩

theorem c4_witness :
    (silentFailed.step Event.checkForUpdate).1.state = silentFailed.state ∨
      (Event.checkForUpdate = Event.checkForUpdate ∧
        (silentFailed.step Event.checkForUpdate).1.state
          = DownloadState.CheckingServer) :=
  (c4_transitions_follow_diagram silentFailed Event.checkForUpdate
      ⟨"https://updates.example", Variant.silent, "2.5.0",
        [Event.checkForUpdate, Event.fetchArrived none], rfl⟩).2.2 rfl

/-- Claim C5: `performUpdate` initiates the install action exactly when
the state is `DownloadComplete` (an update is ready to install): its
return value is `true` exactly then, and it fires `requestRestart`
exactly then; and in the spec's SilentInstaller scenario (running 2.5.0,
server offers 2.6.0) the state sequence is `Unknown`, `CheckingServer`,
`Downloading`, `DownloadComplete`, after which `performUpdate` returns
`true` and fires `requestRestart`. -/
theorem c5_performUpdate_iff_ready (u : OCUpdater) :
    ((u.performUpdate).2 = true ↔ u.state = DownloadState.DownloadComplete) ∧
    ((u.performUpdate).1.2
      = if u.state = DownloadState.DownloadComplete then [Emit.requestRestart]
        else []) ∧
    silentStart.state = DownloadState.Unknown ∧
    (silentStart.run [Event.checkForUpdate]).1.state
      = DownloadState.CheckingServer ∧
    (silentStart.run [Event.checkForUpdate,
        Event.fetchArrived (some sampleInfo)]).1.state
      = DownloadState.Downloading ∧
    (silentStart.run [Event.checkForUpdate,
        Event.fetchArrived (some sampleInfo),
        Event.downloadFinished true]).1.state
      = DownloadState.DownloadComplete ∧
    ((silentStart.run [Event.checkForUpdate,
        Event.fetchArrived (some sampleInfo),
        Event.downloadFinished true]).1.performUpdate).2 = true ∧
    ((silentStart.run [Event.checkForUpdate,
        Event.fetchArrived (some sampleInfo),
        Event.downloadFinished true]).1.performUpdate).1.2
      = [Emit.requestRestart] := by
  refine ⟨?_, ?_, rfl, by decide, by decide, by decide, by decide, by decide⟩
  · by_cases hd : u.state = DownloadState.DownloadComplete <;>
      simp [OCUpdater.performUpdate, hd]
  · by_cases hd : u.state = DownloadState.DownloadComplete <;>
      simp [OCUpdater.performUpdate, hd]

/-- Claim C6: with the passive-notifier variant, processing a fetch that
found a strictly newer version moves the state to
`UpdateOnlyAvailableThroughSystem` and announces `newUpdateAvailable`
exactly once if that version was not announced before in this run and
zero times if it was (the version is recorded as seen either way); and
over any whole run of a passive instance, each distinct version is
announced at most once. -/
theorem c6_passive_announce_once_per_version
    (u : OCUpdater) (info : UpdateInfo) (url rv v : String) (es : List Event)
    (h1 : u.watchdogArmed = true) (h2 : u.variant = Variant.passive)
    (h3 : versionGt info.version u.runningVersion = true) :
    (u.slotVersionInfoArrived (some info)).1.state
      = DownloadState.UpdateOnlyAvailableThroughSystem ∧
    countAnnounce (u.slotVersionInfoArrived (some info)).2 info.version
      = (if info.version ∈ u.seenVersions then 0 else 1) ∧
    info.version ∈ (u.slotVersionInfoArrived (some info)).1.seenVersions ∧
    countAnnounce ((OCUpdater.init url Variant.passive rv).run es).2 v ≤ 1 := by
  refine ⟨?_, ?_, ?_, (announce_run es v (OCUpdater.init url Variant.passive rv)).2⟩
  · simp [OCUpdater.slotVersionInfoArrived, h1, h3,
      OCUpdater.strategyVersionInfoArrived, h2, OCUpdater.setDownloadState]
  · by_cases hm : info.version ∈ u.seenVersions <;>
      simp [OCUpdater.slotVersionInfoArrived, h1, h3,
        OCUpdater.strategyVersionInfoArrived, h2,
        OCUpdater.setDownloadState, countAnnounce, hm]
  · by_cases hm : info.version ∈ u.seenVersions <;>
      simp [OCUpdater.slotVersionInfoArrived, h1, h3,
        OCUpdater.strategyVersionInfoArrived, h2,
        OCUpdater.setDownloadState, hm]

theorem c6_witness :
    (passiveChecking.slotVersionInfoArrived (some sampleInfo)).1.state
      = DownloadState.UpdateOnlyAvailableThroughSystem ∧
    countAnnounce (passiveChecking.slotVersionInfoArrived (some sampleInfo)).2
        sampleInfo.version
      = (if sampleInfo.version ∈ passiveChecking.seenVersions then 0 else 1) ∧
    sampleInfo.version
      ∈ (passiveChecking.slotVersionInfoArrived (some sampleInfo)).1.seenVersions ∧
    countAnnounce ((OCUpdater.init "https://updates.example" Variant.passive
        "2.5.0").run
        [Event.checkForUpdate, Event.fetchArrived (some sampleInfo),
          Event.checkForUpdate, Event.fetchArrived (some sampleInfo)]).2
      "2.6.0" ≤ 1 :=
  c6_passive_announce_once_per_version passiveChecking sampleInfo
    "https://updates.example" "2.5.0" "2.6.0"
    [Event.checkForUpdate, Event.fetchArrived (some sampleInfo),
      Event.checkForUpdate, Event.fetchArrived (some sampleInfo)]
    rfl rfl (by decide)

/-- Claim C7: when the fetch for an open check fails (network error;
parse errors are delivered the same way, as `none`), the state becomes
`DownloadFailed` and the only effect is the state-change notification —
in particular no new fetch is issued, so no retry is scheduled by the
state machine itself; the check is closed, the machine stays usable, and
a later `checkForUpdate` starts a fresh cycle at `CheckingServer`,
issuing exactly one new fetch. -/
theorem c7_fetch_failure_recovers_locally (u : OCUpdater)
    (h : u.watchdogArmed = true) :
    (u.slotVersionInfoArrived none).1.state = DownloadState.DownloadFailed ∧
    (u.slotVersionInfoArrived none).2
      = [Emit.downloadStateChanged DownloadState.DownloadFailed] ∧
    countFetches (u.slotVersionInfoArrived none).2 = 0 ∧
    (u.slotVersionInfoArrived none).1.checkOutstanding = false ∧
    ((u.slotVersionInfoArrived none).1.checkForUpdate).1.state
      = DownloadState.CheckingServer ∧
    countFetches ((u.slotVersionInfoArrived none).1.checkForUpdate).2 = 1 := by
  refine ⟨?_, ?_, ?_, ?_, ?_, ?_⟩ <;>
    simp [OCUpdater.slotVersionInfoArrived, h, OCUpdater.setDownloadState,
      OCUpdater.checkForUpdate, countFetches]

theorem c7_witness :
    (silentChecking.slotVersionInfoArrived none).1.state
      = DownloadState.DownloadFailed ∧
    (silentChecking.slotVersionInfoArrived none).2
      = [Emit.downloadStateChanged DownloadState.DownloadFailed] ∧
    countFetches (silentChecking.slotVersionInfoArrived none).2 = 0 ∧
    (silentChecking.slotVersionInfoArrived none).1.checkOutstanding = false ∧
    ((silentChecking.slotVersionInfoArrived none).1.checkForUpdate).1.state
      = DownloadState.CheckingServer ∧
    countFetches
      ((silentChecking.slotVersionInfoArrived none).1.checkForUpdate).2 = 1 :=
  c7_fetch_failure_recovers_locally silentChecking rfl

/-- Claim C8: `statusString` is a deterministic pure function of the
current `DownloadState` and the cached `UpdateInfo`: it is embedded as a
plain function that returns only a string (so it mutates nothing), and
any two machines agreeing on those two fields — in particular the same
machine queried twice with no intervening transition — yield identical
strings. -/
theorem c8_statusString_pure (u w : OCUpdater)
    (h1 : u.state = w.state) (h2 : u.updateInfo = w.updateInfo) :
    u.statusString = w.statusString := by
  unfold OCUpdater.statusString
  rw [h1, h2]

theorem c8_witness :
    silentChecking.statusString
      = ((OCUpdater.init "https://other.example" Variant.passive "9.9.9").run
          [Event.checkForUpdate]).1.statusString :=
  c8_statusString_pure silentChecking
    ((OCUpdater.init "https://other.example" Variant.passive "9.9.9").run
      [Event.checkForUpdate]).1 rfl rfl

/-- Claim C9: `setDownloadState` is frame-limited: it stores the new
state and emits exactly the `downloadStateChanged` notification, while
the cached `UpdateInfo`, the update URL and every other field of the
machine are unchanged. -/
theorem c9_setDownloadState_frame (u : OCUpdater) (s : DownloadState) :
    (u.setDownloadState s).1.state = s ∧
    (u.setDownloadState s).1.updateInfo = u.updateInfo ∧
    (u.setDownloadState s).1.updateUrl = u.updateUrl ∧
    (u.setDownloadState s).1.variant = u.variant ∧
    (u.setDownloadState s).1.runningVersion = u.runningVersion ∧
    (u.setDownloadState s).1.checkOutstanding = u.checkOutstanding ∧
    (u.setDownloadState s).1.watchdogArmed = u.watchdogArmed ∧
    (u.setDownloadState s).1.seenVersions = u.seenVersions ∧
    (u.setDownloadState s).2 = [Emit.downloadStateChanged s] :=
  ⟨rfl, rfl, rfl, rfl, rfl, rfl, rfl, rfl, rfl⟩

/-- Claim C10: for every `DownloadState` value `s`, setting the state to
`s` and then reading `downloadState()` returns exactly the integer enum
value of `s`; and a freshly constructed instance reports
`Unknown` (0). -/
theorem c10_downloadState_roundtrip (u : OCUpdater) (s : DownloadState)
    (url rv : String) (v : Variant) :
    ((u.setDownloadState s).1).downloadState = s.toCode ∧
    (OCUpdater.init url v rv).downloadState = 0 :=
  ⟨rfl, rfl⟩

end OCC
